import Mathlib

/-!
Verification of the document-chunking and vector-similarity retrieval engine
of the kilocode repository (`LangChainContextEnhancer`).

Two variants of the engine exist in the sources:

* `Main` models `src/services/ghost/LangChainContextEnhancer.ts`, the
  production engine.  Its embedding provider (`OpenAIEmbeddings`) and vector
  store (`MemoryVectorStore`) are external library objects; they are modelled
  abstractly: the outcome of constructing them is an `Except String Unit`
  parameter, the outcome of an `addDocuments` call is an `Except String Unit`
  parameter, and the outcome of a `similaritySearchWithScore` call is an
  `Except String (List _)` parameter.  The store contents are the list of
  documents added so far.  Asynchronous methods are modelled as sequential
  state-transition functions (the host is single-threaded and the stored
  initialization promise is modelled as its settled outcome).

* `P2` models the self-contained demo variant (`src/unnamed/part_002`) whose
  `SimpleMemoryVectorStore` computes a concrete word-overlap similarity
  score; this variant is fully executable.

JavaScript specifics are embedded explicitly: `jsSplitWs` models
`String.prototype.split(/\s+/)` (a leading or trailing whitespace run yields
an empty-string element, the empty string yields a singleton list),
`jsSliceTo` models `Array.prototype.slice(0, n)` including negative `n`, and
`jsDedup` models `Array.from(new Set(xs))` (first-occurrence order).
-/

deriving instance DecidableEq for Except

namespace Retrieval

/-- Model of `Array.from(new Set(xs))`: deduplication keeping the first
occurrence of each element, in encounter order. -/
def jsDedup {α : Type} [DecidableEq α] : List α → List α
  | [] => []
  | x :: xs => x :: jsDedup (xs.filter (fun y => y ≠ x))
termination_by l => l.length
decreasing_by
  exact Nat.lt_succ_of_le (List.length_filter_le _ _)

/-- Model of `Array.prototype.slice(0, n)` for an integer bound `n`:
nonnegative `n` takes the first `n` elements, negative `n` drops the last
`-n` elements. -/
def jsSliceTo {α : Type} (n : Int) (l : List α) : List α :=
  if 0 ≤ n then l.take n.toNat else l.take ((l.length : Int) + n).toNat

mutual

/-- Model of `String.prototype.split(/\s+/)`, token-accumulating phase:
`cur` is the token built so far. -/
def splitWsAux : List Char → String → List String
  | [], cur => [cur]
  | c :: rest, cur =>
    if c.isWhitespace then cur :: splitWsSkip rest else splitWsAux rest (cur.push c)

/-- Model of `String.prototype.split(/\s+/)`, separator-skipping phase:
consumes a maximal whitespace run. -/
def splitWsSkip : List Char → List String
  | [] => [""]
  | c :: rest =>
    if c.isWhitespace then splitWsSkip rest else splitWsAux rest (String.mk [c])

end

/-- Model of `str.split(/\s+/)` in JavaScript. -/
def jsSplitWs (s : String) : List String :=
  splitWsAux s.data ""

/-- Model of `String.prototype.trim()`: strip leading and trailing
whitespace. -/
def jsTrim (s : String) : String :=
  String.mk
    (((s.data.dropWhile Char.isWhitespace).reverse.dropWhile Char.isWhitespace).reverse)

/-- A chunk held by the vector store, with the metadata the source attaches
(`pageContent`, `metadata.filePath`, `metadata.chunkIndex`,
`metadata.language`). -/
structure VectorDocument where
  pageContent : String
  filePath : String
  chunkIndex : Nat
  language : String
deriving DecidableEq, Repr

/-- One element of `relevantCodeChunks` in a `LangChainEnhancedContext`. -/
structure CodeChunk where
  content : String
  filePath : String
  similarity : ℚ
deriving DecidableEq, Repr

/-- The `LangChainEnhancedContext` result object. -/
structure EnhancedContext where
  relevantCodeChunks : List CodeChunk
  contextSummary : String
  relatedFiles : List String
deriving DecidableEq, Repr

/-- The ambient-context fields `generateContextSummary` reads from the
`GhostSuggestionContext` (document file name when a document is present,
number of diagnostics). -/
structure SummaryCtx where
  fileName : Option String
  diagnosticsCount : Nat
deriving DecidableEq, Repr

/-- `generateContextSummary` of both engine variants (identical code). -/
def generateContextSummary (ctx : SummaryCtx) (relevantChunks : List CodeChunk) :
    String :=
  let parts0 : List String :=
    match ctx.fileName with
    | some n => ["Current file: " ++ n]
    | none => []
  let parts1 : List String :=
    if relevantChunks.length > 0 then
      parts0 ++
        ["Found " ++ toString relevantChunks.length ++ " relevant code chunks",
         "Related files: " ++
           String.intercalate ", " (jsDedup (relevantChunks.map (·.filePath)))]
    else parts0
  let parts2 : List String :=
    if ctx.diagnosticsCount > 0 then
      parts1 ++ ["Active diagnostics: " ++ toString ctx.diagnosticsCount]
    else parts1
  String.intercalate ". " parts2

namespace P2

/-- The word-overlap score `SimpleMemoryVectorStore.similaritySearchWithScore`
assigns one document: `commonWords.length / max(queryWords.length,
docWords.length)` where both word lists come from
`toLowerCase().split(/\s+/)`. -/
def simScore (query : String) (d : VectorDocument) : ℚ :=
  let queryWords := jsSplitWs query.toLower
  let docWords := jsSplitWs d.pageContent.toLower
  let commonWords := queryWords.filter (fun w => docWords.contains w)
  (commonWords.length : ℚ) / (max queryWords.length docWords.length : ℚ)

/-- `SimpleMemoryVectorStore.similaritySearchWithScore`: score every stored
document, sort by descending score (JavaScript `sort` is stable), keep the
first `lim`. -/
def similaritySearchWithScore (documents : List VectorDocument)
    (query : String) (lim : Nat) : List (VectorDocument × ℚ) :=
  let results := documents.map (fun d => (d, simScore query d))
  (results.mergeSort (fun a b => decide (b.2 ≤ a.2))).take lim

/-- The demo variant (`part_002`) `enhanceContext`, for an engine whose
enabled flag, store contents and similarity threshold are as given;
`searchQuery` is the value of `query || this.buildSearchQuery(ctx)`. -/
def enhanceContext (enabled : Bool) (store : Option (List VectorDocument))
    (threshold : ℚ) (ctx : SummaryCtx) (searchQuery : String) :
    Option EnhancedContext :=
  if !enabled then none
  else
    match store with
    | none => none
    | some documents =>
      if searchQuery = "" then none
      else
        let relevantDocs := similaritySearchWithScore documents searchQuery 5
        let relevantCodeChunks :=
          (relevantDocs.filter (fun p => threshold ≤ p.2)).map
            (fun p => CodeChunk.mk p.1.pageContent p.1.filePath p.2)
        let relatedFiles := jsDedup (relevantCodeChunks.map (·.filePath))
        some ⟨relevantCodeChunks,
              generateContextSummary ctx relevantCodeChunks,
              relatedFiles⟩

end P2

namespace Main

/-- `LangChainContextConfig` of the production engine. -/
structure MainConfig where
  enabled : Bool
  chunkSize : Int
  chunkOverlap : Int
  maxContextFiles : Int
  similarityThreshold : ℚ
  openaiApiKey : String
  modelName : Option String
deriving DecidableEq, Repr

/-- A `Partial<LangChainContextConfig>` argument of `updateConfig`:
`some` marks a field present in the update object. -/
structure ConfigPatch where
  enabled : Option Bool := none
  chunkSize : Option Int := none
  chunkOverlap : Option Int := none
  maxContextFiles : Option Int := none
  similarityThreshold : Option ℚ := none
  openaiApiKey : Option String := none
  modelName : Option String := none
deriving DecidableEq, Repr

/-- The object spread `{ ...this.config, ...newConfig }`. -/
def mergeConfig (c : MainConfig) (p : ConfigPatch) : MainConfig :=
  { enabled := p.enabled.getD c.enabled
    chunkSize := p.chunkSize.getD c.chunkSize
    chunkOverlap := p.chunkOverlap.getD c.chunkOverlap
    maxContextFiles := p.maxContextFiles.getD c.maxContextFiles
    similarityThreshold := p.similarityThreshold.getD c.similarityThreshold
    openaiApiKey := p.openaiApiKey.getD c.openaiApiKey
    modelName := match p.modelName with
      | some m => some m
      | none => c.modelName }

/-- The mutable fields of a `LangChainContextEnhancer` instance.  The
`embeddings` object is abstracted to the credentials it was built from
(API key, model name); the `vectorStore` to its list of documents
(`none` is the `null` store); the `initializationPromise` to its settled
outcome (`none` is the `null` promise). -/
structure EngineState where
  config : MainConfig
  splitterChunkSize : Int
  splitterChunkOverlap : Int
  vectorStore : Option (List VectorDocument)
  embeddings : Option (String × String)
  isInitialized : Bool
  initializationPromise : Option (Except String Unit)
deriving DecidableEq, Repr

/-- A `vscode.TextDocument` as the engine reads it: uri scheme, uri fsPath,
text, language id. -/
structure InputDoc where
  scheme : String
  fsPath : String
  text : String
  languageId : String
deriving DecidableEq, Repr

/-- `initializeVectorStore`.  Constructing the two external objects
(`OpenAIEmbeddings`, `MemoryVectorStore`) is abstracted into the single
outcome `init`; on success a fresh empty store and the new provider are
installed, on failure the wrapped error is re-thrown and the state is left
untouched. -/
def initializeVectorStore (init : Except String Unit) (s : EngineState) :
    Except String Unit × EngineState :=
  if s.isInitialized || !s.config.enabled then (.ok (), s)
  else
    match init with
    | .ok _ =>
      (.ok (), { s with
        embeddings :=
          some (s.config.openaiApiKey, s.config.modelName.getD "text-embedding-3-small")
        vectorStore := some []
        isInitialized := true })
    | .error e =>
      (.error ("Failed to initialize LangChain context enhancer: " ++ e), s)

/-- The constructor.  `modelName` is defaulted; the other fields of the
required config are stored as passed (the `??` defaults cannot fire on a
fully-typed config except for the optional `modelName`).  After the key
check, `new RecursiveCharacterTextSplitter` runs on the stored chunk
parameters, and its base-class check throws when `chunkOverlap` is at
least `chunkSize`, aborting construction before any initialization is
started. -/
def mkEnhancer (init : Except String Unit) (cfg : MainConfig) :
    Except String EngineState :=
  if cfg.openaiApiKey = "" then
    .error "OpenAI API key is required for LangChain context enhancement"
  else
    let cfg2 := { cfg with modelName := some (cfg.modelName.getD "text-embedding-3-small") }
    if cfg2.chunkSize ≤ cfg2.chunkOverlap then
      .error "Cannot have chunkOverlap >= chunkSize"
    else
      let s0 : EngineState :=
        ⟨cfg2, cfg2.chunkSize, cfg2.chunkOverlap, none, none, false, none⟩
      if cfg2.enabled then
        let r := initializeVectorStore init s0
        .ok { r.2 with initializationPromise := some r.1 }
      else .ok s0

/-- The document-collection loop of `indexWorkspaceDocuments`: skip a
document whose uri scheme is not file or whose text trims to empty,
otherwise split it (a splitter error aborts, mirroring the single
try block around the loop) and emit one `VectorDocument` per chunk. -/
def buildDocs (split : String → Except String (List String)) :
    List InputDoc → Except String (List VectorDocument)
  | [] => .ok []
  | d :: rest =>
    if d.scheme ≠ "file" ∨ jsTrim d.text = "" then buildDocs split rest
    else
      match split d.text with
      | .error e => .error e
      | .ok chunks =>
        match buildDocs split rest with
        | .error e => .error e
        | .ok tail =>
          .ok ((chunks.enum.map
            (fun p => VectorDocument.mk p.2 d.fsPath p.1 d.languageId)) ++ tail)

/-- `indexWorkspaceDocuments`.  `split` is the text splitter, `addResult`
the outcome of the external `vectorStore.addDocuments` call (the store
embeds first and appends after, so a failed call appends nothing). -/
def indexDocs (split : String → Except String (List String))
    (addResult : Except String Unit) (docs : List InputDoc)
    (s : EngineState) : EngineState :=
  if !s.config.enabled then s
  else
    match s.initializationPromise with
    | some (.error _) => s
    | _ =>
      match s.vectorStore with
      | none => s
      | some st =>
        match buildDocs split (jsSliceTo s.config.maxContextFiles docs) with
        | .error _ => s
        | .ok langchainDocs =>
          if langchainDocs.length > 0 then
            match addResult with
            | .ok _ => { s with vectorStore := some (st ++ langchainDocs) }
            | .error _ => s
          else s

/-- `enhanceContext`.  `searchQuery` is the value of
`query || this.buildSearchQuery(originalContext)` (the editor-facing query
construction is an excluded collaborator); `searchResult` the outcome of the
external `vectorStore.similaritySearchWithScore(searchQuery, 5)` call. -/
def enhance (searchQuery : String)
    (searchResult : Except String (List (VectorDocument × ℚ)))
    (ctx : SummaryCtx) (s : EngineState) : Option EnhancedContext :=
  if !s.config.enabled then none
  else
    let awaitFailed :=
      match s.initializationPromise, s.isInitialized with
      | some (.error _), false => true
      | _, _ => false
    if awaitFailed then none
    else
      match s.vectorStore with
      | none => none
      | some _ =>
        if searchQuery = "" then none
        else
          match searchResult with
          | .error _ => none
          | .ok relevantDocs =>
            let relevantCodeChunks :=
              (relevantDocs.filter
                (fun p => s.config.similarityThreshold ≤ p.2)).map
                (fun p => CodeChunk.mk p.1.pageContent p.1.filePath p.2)
            let relatedFiles := jsDedup (relevantCodeChunks.map (·.filePath))
            some ⟨relevantCodeChunks,
                  generateContextSummary ctx relevantCodeChunks,
                  relatedFiles⟩

/-- JavaScript truthiness of an optional numeric update field
(`newConfig.chunkSize || newConfig.chunkOverlap`): present and nonzero. -/
def truthyInt : Option Int → Bool
  | some v => v != 0
  | none => false

/-- Range check of an optional integer update field. -/
def badIntRange (o : Option Int) (lo hi : Int) : Bool :=
  match o with
  | some v => decide (v < lo) || decide (hi < v)
  | none => false

/-- Range check of the optional similarity-threshold update field. -/
def badRatRange (o : Option ℚ) (lo hi : ℚ) : Bool :=
  match o with
  | some v => decide (v < lo) || decide (hi < v)
  | none => false

/-- The assignment `this.config = { ...this.config, ...newConfig }`. -/
def applyMerge (p : ConfigPatch) (s : EngineState) : EngineState :=
  { s with config := mergeConfig s.config p }

/-- The splitter rebuild `if (newConfig.chunkSize || newConfig.chunkOverlap)`
(JavaScript truthiness: a present zero does not trigger it).  Rebuilding
constructs a `RecursiveCharacterTextSplitter` on the merged chunk
parameters, whose base-class check throws Cannot have chunkOverlap >=
chunkSize; since this runs after the configuration assignment, the throw
leaves the merged (violating) configuration stored. -/
def applySplitterSwap (p : ConfigPatch) (s : EngineState) :
    Except String EngineState :=
  if truthyInt p.chunkSize || truthyInt p.chunkOverlap then
    if s.config.chunkSize ≤ s.config.chunkOverlap then
      .error "Cannot have chunkOverlap >= chunkSize"
    else
      .ok { s with splitterChunkSize := s.config.chunkSize
                   splitterChunkOverlap := s.config.chunkOverlap }
  else .ok s

/-- The reset block: when `enabled === false` was given or an API key or
model name was present in the update, the store, the provider, the
initialized flag and the stored promise are all cleared. -/
def applyReset (p : ConfigPatch) (s : EngineState) : EngineState :=
  if decide (p.enabled = some false) || p.openaiApiKey.isSome
      || p.modelName.isSome then
    { s with vectorStore := none, embeddings := none,
             isInitialized := false, initializationPromise := none }
  else s

/-- The re-initialization block: when the engine is enabled, uninitialized
and holds no pending promise, a fresh initialization is run and its settled
outcome stored as the new promise. -/
def applyReinit (init : Except String Unit) (s : EngineState) : EngineState :=
  if s.config.enabled && !s.isInitialized && s.initializationPromise.isNone then
    let r := initializeVectorStore init s
    { r.2 with initializationPromise := some r.1 }
  else s

/-- `updateConfig`: the five validations run before any mutation (a throw
is the `.error` result with the state unchanged); then, in the source
order, the merged config is stored, the splitter is rebuilt when a truthy
chunk parameter was given (a rebuild throw escapes here, leaving the
already-mutated configuration behind and skipping the remaining blocks),
the store and provider are discarded when `enabled === false` or an API
key or model name was given, and a new initialization is started when the
engine is enabled, uninitialized and has no pending promise. -/
def runUpdate (init : Except String Unit) (p : ConfigPatch) (s : EngineState) :
    Except String Unit × EngineState :=
  if p.openaiApiKey = some "" then
    (.error "OpenAI API key cannot be empty", s)
  else if badIntRange p.chunkSize 100 4000 then
    (.error "Chunk size must be between 100 and 4000", s)
  else if badIntRange p.chunkOverlap 0 1000 then
    (.error "Chunk overlap must be between 0 and 1000", s)
  else if badIntRange p.maxContextFiles 1 50 then
    (.error "Max context files must be between 1 and 50", s)
  else if badRatRange p.similarityThreshold 0 1 then
    (.error "Similarity threshold must be between 0 and 1", s)
  else
    let s1 := applyMerge p s
    match applySplitterSwap p s1 with
    | .error e => (.error e, s1)
    | .ok s2 => (.ok (), applyReinit init (applyReset p s2))

/-- `isReady`. -/
def isReady (s : EngineState) : Bool :=
  s.config.enabled && s.isInitialized && s.vectorStore.isSome

/-- `isAvailable`. -/
def isAvailable (s : EngineState) : Bool :=
  s.config.enabled && (s.isInitialized || s.initializationPromise.isSome)

/-- Whether `indexWorkspaceDocuments` keeps a source: local (uri scheme
file) and non-empty after trimming. -/
def keepDoc (d : InputDoc) : Bool :=
  decide (d.scheme = "file") && !decide (jsTrim d.text = "")

/-- SPEC-SIDE definition for claim C8, following the claim words rather
than the source: filter out non-local or empty sources, THEN truncate to
`maxFiles`, then chunk each remaining source, a source that fails to chunk
being skipped without failing the batch; the result is the chunk list the
claim says gets added to the index. -/
def claimC8Docs (split : String → Except String (List String))
    (maxFiles : Int) (docs : List InputDoc) : List VectorDocument :=
  let kept := docs.filter keepDoc
  let trunc := jsSliceTo maxFiles kept
  trunc.foldr
    (fun d acc =>
      match split d.text with
      | .error _ => acc
      | .ok chunks =>
        (chunks.enum.map
          (fun p => VectorDocument.mk p.2 d.fsPath p.1 d.languageId)) ++ acc)
    []

end Main

namespace Fallback

/-- Modelled from the spec: the character codes of a text, the raw material
of the deterministic fallback embedding (no character-code embedding exists
under src; the only fallback in the sources, SimpleMemoryVectorStore,
scores by word overlap instead). -/
def charCodes (s : String) : List Nat := s.data.map Char.toNat

/-- Modelled from the spec: the un-normalized fallback vector, one real
component per character code. -/
noncomputable def rawVec (s : String) : List ℝ :=
  (charCodes s).map (fun c => (c : ℝ))

/-- Sum of squares of a real vector. -/
noncomputable def sumSq (v : List ℝ) : ℝ := (v.map (fun x => x * x)).sum

/-- Euclidean norm of a real vector. -/
noncomputable def l2norm (v : List ℝ) : ℝ := Real.sqrt (sumSq v)

/-- Modelled from the spec: `embedOne` of the deterministic fallback
embedding computes a normalized vector from character codes; when the
normalization denominator is zero the result is the zero vector. -/
noncomputable def embedOne (s : String) : List ℝ :=
  if l2norm (rawVec s) = 0 then (rawVec s).map (fun _ => 0)
  else (rawVec s).map (fun x => x / l2norm (rawVec s))

end Fallback

/-! Concrete fixtures used by counterexamples and witnesses. -/

namespace Fix

open Main

/-- A valid enabled configuration (the numeric defaults of the source with
threshold zero and a non-empty API key). -/
def cfg0 : MainConfig :=
  ⟨true, 1000, 200, 10, 0, "k", some "text-embedding-3-small"⟩

/-- The engine state the constructor produces from `cfg0` when the external
provider construction succeeds. -/
def s0 : EngineState :=
  ⟨cfg0, 1000, 200, some [], some ("k", "text-embedding-3-small"), true,
    some (.ok ())⟩

/-- `s0` with the document cap lowered to one. -/
def sMax1 : EngineState :=
  { s0 with config := { s0.config with maxContextFiles := 1 } }

/-- An enabled engine whose initialization failed: null store, null
provider, stored promise settled with an error. -/
def sFail : EngineState :=
  ⟨cfg0, 1000, 200, none, none, false,
    some (.error "Failed to initialize LangChain context enhancer: boom")⟩

/-- `cfg0` disabled. -/
def cfgDis : MainConfig := { cfg0 with enabled := false }

/-- `cfg0` with an empty API key. -/
def cfgNoKey : MainConfig := { cfg0 with openaiApiKey := "" }

/-- The state the constructor produces from `cfg0` after an accepted update
that replaced the API key by k2 and re-initialized. -/
def s0k2 : EngineState :=
  ⟨{ cfg0 with openaiApiKey := "k2" }, 1000, 200, some [],
    some ("k2", "text-embedding-3-small"), true, some (.ok ())⟩

/-- An update carrying chunkSize 100 and chunkOverlap 200: each field is in
its own range, together they violate `chunkOverlap < chunkSize`. -/
def patchC4 : ConfigPatch := { chunkSize := some 100, chunkOverlap := some 200 }

/-- An update carrying only maxContextFiles 5 (no chunk field, so no
splitter rebuild). -/
def patchMax5 : ConfigPatch := { maxContextFiles := some 5 }

/-- An update growing chunkSize to 2000 (truthy, rebuild succeeds). -/
def patchGrow : ConfigPatch := { chunkSize := some 2000 }

/-- The state an accepted `patchGrow` update produces from `s0`. -/
def sGrow : EngineState :=
  ⟨{ cfg0 with chunkSize := 2000 }, 2000, 200, some [],
    some ("k", "text-embedding-3-small"), true, some (.ok ())⟩

/-- An update carrying an out-of-range chunk size. -/
def patchBad : ConfigPatch := { chunkSize := some 50 }

/-- An update replacing the API key. -/
def patchKey : ConfigPatch := { openaiApiKey := some "k2" }

/-- A non-local document. -/
def dU : InputDoc := ⟨"untitled", "/u.ts", "text", "ts"⟩

/-- A local, non-empty document. -/
def dG : InputDoc := ⟨"file", "/g.ts", "good text", "ts"⟩

/-- A local document whose text makes the splitter fail under `split1`. -/
def dB : InputDoc := ⟨"file", "/b.ts", "BAD", "ts"⟩

/-- A splitter that fails on the text of `dB` and otherwise returns the
whole text as the single chunk. -/
def split1 : String → Except String (List String) :=
  fun t => if t = "BAD" then .error "boom" else .ok [t]

/-- The single chunk document `dG` contributes under `split1`. -/
def gChunk : VectorDocument := ⟨"good text", "/g.ts", 0, "ts"⟩

/-- A stored document for query fixtures. -/
def storeDoc : VectorDocument := ⟨"alpha beta", "/s.ts", 0, "ts"⟩

end Fix

/-! Helper lemmas. -/

theorem jsDedup_mem {α : Type} [DecidableEq α] (l : List α) (a : α) :
    a ∈ jsDedup l ↔ a ∈ l := by
  induction l using jsDedup.induct with
  | case1 => simp [jsDedup]
  | case2 x xs ih =>
    simp only [jsDedup, List.mem_cons, ih, List.mem_filter, decide_eq_true_eq]
    constructor
    · rintro (rfl | ⟨h, _⟩)
      · exact Or.inl rfl
      · exact Or.inr h
    · rintro (rfl | h)
      · exact Or.inl rfl
      · by_cases hx : a = x
        · exact Or.inl hx
        · exact Or.inr ⟨h, hx⟩

theorem jsDedup_nodup {α : Type} [DecidableEq α] (l : List α) :
    (jsDedup l).Nodup := by
  induction l using jsDedup.induct with
  | case1 => simp [jsDedup]
  | case2 x xs ih =>
    simp only [jsDedup, List.nodup_cons]
    refine ⟨fun hmem => ?_, ih⟩
    rw [jsDedup_mem] at hmem
    simp only [List.mem_filter, decide_eq_true_eq] at hmem
    exact hmem.2 rfl

mutual

theorem splitWsAux_ne_nil : ∀ (l : List Char) (cur : String), splitWsAux l cur ≠ []
  | [], _ => by simp [splitWsAux]
  | c :: rest, cur => by
    rw [splitWsAux]
    by_cases h : c.isWhitespace
    · simp [h]
    · simpa [h] using splitWsAux_ne_nil rest (cur.push c)

theorem splitWsSkip_ne_nil : ∀ (l : List Char), splitWsSkip l ≠ []
  | [] => by simp [splitWsSkip]
  | c :: rest => by
    rw [splitWsSkip]
    by_cases h : c.isWhitespace
    · simpa [h] using splitWsSkip_ne_nil rest
    · simpa [h] using splitWsAux_ne_nil rest (String.mk [c])

end

theorem jsSplitWs_ne_nil (s : String) : jsSplitWs s ≠ [] :=
  splitWsAux_ne_nil s.data ""

theorem one_le_length_jsSplitWs (s : String) : 1 ≤ (jsSplitWs s).length :=
  Nat.one_le_iff_ne_zero.mpr (fun h => jsSplitWs_ne_nil s (List.length_eq_zero.mp h))

theorem sumSq_nonneg (v : List ℝ) : 0 ≤ Fallback.sumSq v :=
  List.sum_nonneg (by
    intro x hx
    obtain ⟨y, _, rfl⟩ := List.mem_map.mp hx
    exact mul_self_nonneg y)

theorem sumSq_map_zero (v : List ℝ) : Fallback.sumSq (v.map (fun _ => 0)) = 0 := by
  induction v with
  | nil => simp [Fallback.sumSq]
  | cons x xs ih => simp [Fallback.sumSq] at ih ⊢

theorem sumSq_map_div (v : List ℝ) (n : ℝ) :
    Fallback.sumSq (v.map (fun x => x / n)) = Fallback.sumSq v / (n * n) := by
  induction v with
  | nil => simp [Fallback.sumSq]
  | cons x xs ih =>
    simp only [Fallback.sumSq, List.map_cons, List.sum_cons] at *
    rw [ih, div_mul_div_comm, div_add_div_same]

/-! Claim theorems. -/

/-- C10: the fallback similarity score of `SimpleMemoryVectorStore` is total
and lies in the interval from 0 to 1: splitting any string on whitespace
yields a non-empty list, so the denominator `max(queryWords.length,
docWords.length)` is at least 1, no division by zero occurs, and every
score is comparable to the similarity threshold. -/
theorem similarity_score_total_bounds (q : String) (d : VectorDocument) :
    jsSplitWs q ≠ [] ∧
    1 ≤ max (jsSplitWs q.toLower).length (jsSplitWs d.pageContent.toLower).length ∧
    0 ≤ P2.simScore q d ∧ P2.simScore q d ≤ 1 := by
  have hq : 1 ≤ (jsSplitWs q.toLower).length := one_le_length_jsSplitWs _
  refine ⟨jsSplitWs_ne_nil q, le_trans hq (le_max_left _ _), ?_, ?_⟩
  · simp only [P2.simScore]
    exact div_nonneg (by positivity) (by positivity)
  · simp only [P2.simScore]
    have hq' : (1 : ℚ) ≤ ((jsSplitWs q.toLower).length : ℚ) := by exact_mod_cast hq
    have hden : (1 : ℚ) ≤
        max ((jsSplitWs q.toLower).length : ℚ) ((jsSplitWs d.pageContent.toLower).length : ℚ) :=
      le_trans hq' (le_max_left _ _)
    rw [div_le_one (lt_of_lt_of_le zero_lt_one hden)]
    have hfil : (((jsSplitWs q.toLower).filter
        (fun w => (jsSplitWs d.pageContent.toLower).contains w)).length : ℚ) ≤
        ((jsSplitWs q.toLower).length : ℚ) := by
      exact_mod_cast List.length_filter_le _ _
    exact le_trans hfil (le_max_left _ _)

/-- C9 (spec-modelled; no character-code embedding exists under src): the
deterministic fallback embedding is a pure function, repeated applications
agree, and the Euclidean norm of its output is exactly 1, or exactly 0 in
the sole case that the normalization denominator is zero. -/
theorem fallback_embedding_unit_norm (s : String) :
    Fallback.embedOne s = Fallback.embedOne s ∧
    (Fallback.l2norm (Fallback.embedOne s) = 1 ∨
      (Fallback.l2norm (Fallback.embedOne s) = 0 ∧
        Fallback.l2norm (Fallback.rawVec s) = 0)) := by
  refine ⟨rfl, ?_⟩
  by_cases h : Fallback.l2norm (Fallback.rawVec s) = 0
  · right
    refine ⟨?_, h⟩
    rw [Fallback.embedOne, if_pos h, Fallback.l2norm, sumSq_map_zero, Real.sqrt_zero]
  · left
    rw [Fallback.embedOne, if_neg h, Fallback.l2norm, sumSq_map_div]
    have hnn : 0 ≤ Fallback.sumSq (Fallback.rawVec s) := sumSq_nonneg _
    have hne : Fallback.sumSq (Fallback.rawVec s) ≠ 0 := by
      intro h0
      exact h (by rw [Fallback.l2norm, h0, Real.sqrt_zero])
    rw [Fallback.l2norm, Real.mul_self_sqrt hnn, div_self hne, Real.sqrt_one]

/-- C2: for every non-empty query on an index holding N chunks, the query
operation returns at most min(5, N) chunks, keeps exactly the retrieved
chunks whose similarity score is at least the threshold, orders them by
non-increasing similarity, and the relatedFiles of the returned
EnhancedContext is the deduplicated set of source identifiers of the kept
chunks; querying an empty index yields zero chunks. -/
theorem enhanceContext_query_spec (documents : List VectorDocument) (t : ℚ)
    (ctx : SummaryCtx) (q : String) (hq : q ≠ "") :
    ∃ ec, P2.enhanceContext true (some documents) t ctx q = some ec ∧
      ec.relevantCodeChunks.length ≤ min 5 documents.length ∧
      (∀ c ∈ ec.relevantCodeChunks, t ≤ c.similarity) ∧
      (∀ p ∈ P2.similaritySearchWithScore documents q 5, t ≤ p.2 →
        CodeChunk.mk p.1.pageContent p.1.filePath p.2 ∈ ec.relevantCodeChunks) ∧
      ec.relevantCodeChunks.Pairwise (fun a b => b.similarity ≤ a.similarity) ∧
      ec.relatedFiles.Nodup ∧
      (∀ f, f ∈ ec.relatedFiles ↔ ∃ c ∈ ec.relevantCodeChunks, c.filePath = f) ∧
      (documents = [] → ec.relevantCodeChunks = []) := by
  classical
  set search := P2.similaritySearchWithScore documents q 5 with hsearch
  set kept := search.filter (fun p => decide (t ≤ p.2)) with hkept
  set chunks := kept.map (fun p => CodeChunk.mk p.1.pageContent p.1.filePath p.2) with hchunks
  have hec : P2.enhanceContext true (some documents) t ctx q =
      some ⟨chunks, generateContextSummary ctx chunks, jsDedup (chunks.map (·.filePath))⟩ := by
    simp only [P2.enhanceContext, Bool.not_true, if_neg hq]
    rfl
  have hsearchlen : search.length = min 5 documents.length := by
    rw [hsearch]
    simp only [P2.similaritySearchWithScore]
    rw [List.length_take, (List.mergeSort_perm _ _).length_eq, List.length_map]
  have hsort : search.Pairwise (fun a b => b.2 ≤ a.2) := by
    have htrans : ∀ (a b c : VectorDocument × ℚ),
        (fun x y => decide (y.2 ≤ x.2)) a b = true →
        (fun x y => decide (y.2 ≤ x.2)) b c = true →
        (fun x y => decide (y.2 ≤ x.2)) a c = true := by
      intro a b c hab hbc
      simp only [decide_eq_true_eq] at *
      exact le_trans hbc hab
    have htotal : ∀ (a b : VectorDocument × ℚ),
        ((fun x y => decide (y.2 ≤ x.2)) a b || (fun x y => decide (y.2 ≤ x.2)) b a) = true := by
      intro a b
      simp only [Bool.or_eq_true, decide_eq_true_eq]
      exact le_total b.2 a.2
    have h1 := List.sorted_mergeSort htrans htotal
      (documents.map (fun d => (d, P2.simScore q d)))
    have h2 : search.Pairwise (fun a b => decide (b.2 ≤ a.2) = true) := by
      rw [hsearch]
      simp only [P2.similaritySearchWithScore]
      exact List.Pairwise.sublist (List.take_sublist _ _) h1
    exact h2.imp (fun h => by simpa using h)
  refine ⟨⟨chunks, generateContextSummary ctx chunks, jsDedup (chunks.map (·.filePath))⟩,
    hec, ?_, ?_, ?_, ?_, ?_, ?_, ?_⟩
  · rw [hchunks, List.length_map]
    exact le_trans (by rw [hkept]; exact List.length_filter_le _ _) (le_of_eq hsearchlen)
  · intro c hc
    rw [hchunks] at hc
    obtain ⟨p, hp, rfl⟩ := List.mem_map.mp hc
    rw [hkept] at hp
    have := (List.mem_filter.mp hp).2
    simpa using this
  · intro p hp hscore
    rw [hchunks]
    exact List.mem_map_of_mem _ (by rw [hkept]; exact List.mem_filter.mpr ⟨hp, by simpa using hscore⟩)
  · rw [hchunks]
    rw [List.pairwise_map]
    exact List.Pairwise.sublist (List.filter_sublist _) hsort
  · exact jsDedup_nodup _
  · intro f
    rw [jsDedup_mem]
    simp [List.mem_map]
  · intro h
    subst h
    rw [hchunks, hkept, hsearch]
    simp [P2.similaritySearchWithScore]

/-- Witness for C2: the property instantiated at a one-document index and
the non-empty query alpha. -/
theorem enhanceContext_query_spec_witness :
    ("alpha" : String) ≠ "" ∧
    (∃ ec, P2.enhanceContext true (some [Fix.storeDoc]) 0 ⟨none, 0⟩ "alpha" = some ec ∧
      ec.relevantCodeChunks.length ≤ min 5 [Fix.storeDoc].length ∧
      (∀ c ∈ ec.relevantCodeChunks, 0 ≤ c.similarity) ∧
      (∀ p ∈ P2.similaritySearchWithScore [Fix.storeDoc] "alpha" 5, 0 ≤ p.2 →
        CodeChunk.mk p.1.pageContent p.1.filePath p.2 ∈ ec.relevantCodeChunks) ∧
      ec.relevantCodeChunks.Pairwise (fun a b => b.similarity ≤ a.similarity) ∧
      ec.relatedFiles.Nodup ∧
      (∀ f, f ∈ ec.relatedFiles ↔ ∃ c ∈ ec.relevantCodeChunks, c.filePath = f) ∧
      ([Fix.storeDoc] = ([] : List VectorDocument) → ec.relevantCodeChunks = [])) :=
  ⟨by decide, enhanceContext_query_spec [Fix.storeDoc] 0 ⟨none, 0⟩ "alpha" (by decide)⟩

open Main

/-- C6: for every provider failure raised during an indexing or querying
call (the external addDocuments or similaritySearchWithScore call settles
with an error), the error never propagates: indexWorkspaceDocuments
resolves with the engine state, including the vector index, exactly as it
was, and enhanceContext resolves to null instead of raising. -/
theorem provider_failure_contained (split : String → Except String (List String))
    (docs : List InputDoc) (s : EngineState) (e e2 : String) (q : String)
    (sr : SummaryCtx) :
    indexDocs split (.error e) docs s = s ∧
    enhance q (.error e2) sr s = none := by
  constructor
  · unfold indexDocs
    split
    · rfl
    · split
      · rfl
      · split
        · rfl
        · split
          · rfl
          · split
            · rfl
            · rfl
  · unfold enhance
    split
    · rfl
    · split
      · rfl
      · split
        · rfl
        · split
          · rfl
          · rfl

/-- C1: with an enabled engine whose initialization is in flight, both
indexWorkspaceDocuments and enhanceContext first await the stored
initialization promise: when it settled with an error,
indexWorkspaceDocuments resolves leaving the state untouched and
enhanceContext resolves to null, and neither operation ever touches the
vector store while it is null (a state change by indexing, or a non-null
enhancement, each require a non-null store). -/
theorem initGate_blocks_ops (s : EngineState)
    (split : String → Except String (List String)) (addResult : Except String Unit)
    (docs : List InputDoc) (q : String)
    (sr : Except String (List (VectorDocument × ℚ))) (ctx : SummaryCtx) (e : String) :
    (s.initializationPromise = some (.error e) → s.isInitialized = false →
      indexDocs split addResult docs s = s ∧ enhance q sr ctx s = none) ∧
    (indexDocs split addResult docs s ≠ s → s.vectorStore ≠ none) ∧
    (enhance q sr ctx s ≠ none → s.vectorStore ≠ none) := by
  refine ⟨fun h1 h2 => ⟨?_, ?_⟩, fun hne hnone => ?_, fun hne hnone => ?_⟩
  · unfold indexDocs
    split
    · rfl
    · rw [h1]
  · unfold enhance
    split
    · rfl
    · have : (match s.initializationPromise, s.isInitialized with
        | some (.error _), false => true
        | _, _ => false) = true := by rw [h1, h2]
      rw [if_pos this]
  · apply hne
    unfold indexDocs
    split
    · rfl
    · split
      · rfl
      · rw [hnone]
  · apply hne
    unfold enhance
    split
    · rfl
    · split
      · rfl
      · rw [hnone]
        rfl

/-- Witness for C1: on a concrete enabled engine whose stored
initialization promise settled with an error, indexing is the identity and
querying yields null. -/
theorem initGate_blocks_ops_witness :
    indexDocs Fix.split1 (.ok ()) [Fix.dG] Fix.sFail = Fix.sFail ∧
    enhance "q" (.ok []) ⟨none, 0⟩ Fix.sFail = none :=
  (initGate_blocks_ops Fix.sFail Fix.split1 (.ok ()) [Fix.dG] "q" (.ok []) ⟨none, 0⟩
    "Failed to initialize LangChain context enhancer: boom").1 rfl rfl

/-- C7: an engine constructed with enabled false reports isAvailable
false, indexes nothing (every indexWorkspaceDocuments call resolves and is
the identity on the state) and every enhanceContext call resolves to
null.  The chunk-parameter hypothesis reflects that construction throws
from the splitter otherwise, so no engine exists outside it. -/
theorem disabled_engine_noop (init : Except String Unit) (cfg : MainConfig)
    (hk : cfg.openaiApiKey ≠ "") (he : cfg.enabled = false)
    (ho : cfg.chunkOverlap < cfg.chunkSize) :
    ∃ s, mkEnhancer init cfg = .ok s ∧ isAvailable s = false ∧
      (∀ split addResult docs, indexDocs split addResult docs s = s) ∧
      (∀ q sr ctx, enhance q sr ctx s = none) := by
  refine ⟨⟨{ cfg with modelName := some (cfg.modelName.getD "text-embedding-3-small") },
    cfg.chunkSize, cfg.chunkOverlap, none, none, false, none⟩, ?_, ?_, ?_, ?_⟩
  · simp [mkEnhancer, hk, he, not_le.mpr ho]
  · simp [isAvailable, he]
  · intro split addResult docs
    simp [indexDocs, he]
  · intro q sr ctx
    simp [enhance, he]

/-- Witness for C7: the property at a concrete disabled configuration. -/
theorem disabled_engine_noop_witness :
    ∃ s, mkEnhancer (.ok ()) Fix.cfgDis = .ok s ∧ isAvailable s = false ∧
      (∀ split addResult docs, indexDocs split addResult docs s = s) ∧
      (∀ q sr ctx, enhance q sr ctx s = none) :=
  disabled_engine_noop (.ok ()) Fix.cfgDis (by decide) rfl (by decide)

/-- C3: invalid configuration is rejected synchronously and atomically:
constructing the engine with an empty API key throws a configuration
error, and an updateConfig call carrying an empty API key or an
out-of-range chunkSize, chunkOverlap, maxContextFiles or
similarityThreshold throws a descriptive error and leaves the stored state
(hence every configuration field) exactly as it was. -/
theorem config_validation_rejects_atomically
    (init : Except String Unit) (cfg : MainConfig) (s : EngineState) (p : ConfigPatch)
    (hbad : p.openaiApiKey = some "" ∨
      (∃ v, p.chunkSize = some v ∧ (v < 100 ∨ 4000 < v)) ∨
      (∃ v, p.chunkOverlap = some v ∧ (v < 0 ∨ 1000 < v)) ∨
      (∃ v, p.maxContextFiles = some v ∧ (v < 1 ∨ 50 < v)) ∨
      (∃ v, p.similarityThreshold = some v ∧ (v < 0 ∨ 1 < v))) :
    (cfg.openaiApiKey = "" → ∃ msg, mkEnhancer init cfg = .error msg) ∧
    (∃ msg, (runUpdate init p s).1 = .error msg) ∧
    (runUpdate init p s).2 = s := by
  refine ⟨fun hk => ⟨"OpenAI API key is required for LangChain context enhancement",
    by simp [mkEnhancer, hk]⟩, ?_⟩
  by_cases h1 : p.openaiApiKey = some ""
  · exact ⟨⟨"OpenAI API key cannot be empty", by simp [runUpdate, h1]⟩,
      by simp [runUpdate, h1]⟩
  · by_cases h2 : badIntRange p.chunkSize 100 4000 = true
    · exact ⟨⟨"Chunk size must be between 100 and 4000", by simp [runUpdate, h1, h2]⟩,
        by simp [runUpdate, h1, h2]⟩
    · by_cases h3 : badIntRange p.chunkOverlap 0 1000 = true
      · exact ⟨⟨"Chunk overlap must be between 0 and 1000",
          by simp [runUpdate, h1, h2, h3]⟩, by simp [runUpdate, h1, h2, h3]⟩
      · by_cases h4 : badIntRange p.maxContextFiles 1 50 = true
        · exact ⟨⟨"Max context files must be between 1 and 50",
            by simp [runUpdate, h1, h2, h3, h4]⟩, by simp [runUpdate, h1, h2, h3, h4]⟩
        · by_cases h5 : badRatRange p.similarityThreshold 0 1 = true
          · exact ⟨⟨"Similarity threshold must be between 0 and 1",
              by simp [runUpdate, h1, h2, h3, h4, h5]⟩,
              by simp [runUpdate, h1, h2, h3, h4, h5]⟩
          · exfalso
            rcases hbad with hb | ⟨v, hv, hr⟩ | ⟨v, hv, hr⟩ | ⟨v, hv, hr⟩ | ⟨v, hv, hr⟩
            · exact h1 hb
            · simp [badIntRange, hv] at h2
              rcases hr with h | h
              · exact absurd h (by omega)
              · exact absurd h (by omega)
            · simp [badIntRange, hv] at h3
              rcases hr with h | h
              · exact absurd h (by omega)
              · exact absurd h (by omega)
            · simp [badIntRange, hv] at h4
              rcases hr with h | h
              · exact absurd h (by omega)
              · exact absurd h (by omega)
            · simp [badRatRange, hv] at h5
              rcases hr with h | h
              · exact absurd h (by simpa using h5.1)
              · exact absurd h (by simpa using h5.2)

/-- Witness for C3: the constructor rejection at an empty key and the
update rejection at chunkSize 50, with the state untouched. -/
theorem config_validation_rejects_atomically_witness :
    (Fix.cfgNoKey.openaiApiKey = "" →
      ∃ msg, mkEnhancer (.ok ()) Fix.cfgNoKey = .error msg) ∧
    (∃ msg, (runUpdate (.ok ()) Fix.patchBad Fix.s0).1 = .error msg) ∧
    (runUpdate (.ok ()) Fix.patchBad Fix.s0).2 = Fix.s0 :=
  config_validation_rejects_atomically (.ok ()) Fix.cfgNoKey Fix.s0 Fix.patchBad
    (Or.inr (Or.inl ⟨50, rfl, Or.inl (by decide)⟩))

/-- `initializeVectorStore` never changes the stored configuration. -/
theorem initializeVectorStore_config (init : Except String Unit) (s : EngineState) :
    ((initializeVectorStore init s).2).config = s.config := by
  rw [initializeVectorStore.eq_def]
  split
  · rfl
  · split <;> rfl

/-- The reset block never changes the stored configuration. -/
theorem applyReset_config (p : ConfigPatch) (x : EngineState) :
    (applyReset p x).config = x.config := by
  rw [applyReset]
  split <;> rfl

/-- The re-initialization block never changes the stored configuration. -/
theorem applyReinit_config (init : Except String Unit) (x : EngineState) :
    (applyReinit init x).config = x.config := by
  rw [applyReinit]
  split
  · exact initializeVectorStore_config init x
  · rfl

/-- Counterexample for C4: updateConfig with chunkSize 100 and
chunkOverlap 200 (each inside its own range) throws from the splitter
rebuild, but only after the configuration assignment: the stored
configuration keeps the violating values, refuting rejection with no
partial mutation; a subsequent update carrying only maxContextFiles 5 is
then accepted while the stored configuration still violates
chunkOverlap < chunkSize, refuting the invariant for accepted updates. -/
theorem chunkOverlap_invariant_counterexample :
    (runUpdate (.ok ()) Fix.patchC4 Fix.s0).1 =
      .error "Cannot have chunkOverlap >= chunkSize" ∧
    (runUpdate (.ok ()) Fix.patchC4 Fix.s0).2.config.chunkSize = 100 ∧
    (runUpdate (.ok ()) Fix.patchC4 Fix.s0).2.config.chunkOverlap = 200 ∧
    (runUpdate (.ok ()) Fix.patchC4 Fix.s0).2.config ≠ Fix.s0.config ∧
    (runUpdate (.ok ()) Fix.patchMax5
      (runUpdate (.ok ()) Fix.patchC4 Fix.s0).2).1 = .ok () ∧
    ¬ ((runUpdate (.ok ()) Fix.patchMax5
          (runUpdate (.ok ()) Fix.patchC4 Fix.s0).2).2.config.chunkOverlap <
       (runUpdate (.ok ()) Fix.patchMax5
          (runUpdate (.ok ()) Fix.patchC4 Fix.s0).2).2.config.chunkSize) :=
  ⟨by decide, by decide, by decide, by decide, by decide, by decide⟩

/-- C4 as amended: a construction that would violate
chunkOverlap < chunkSize throws (so every accepted construction satisfies
the invariant), and an accepted update that rebuilt the splitter (carried
a truthy chunkSize or chunkOverlap) satisfies it; but a violating update
passing the per-field validations throws from the splitter rebuild only
AFTER the configuration assignment, leaving the merged violating values in
the stored configuration (no atomicity), and an accepted update without a
splitter rebuild can leave a pre-existing violation in place. -/
theorem chunkOverlap_invariant_amended (init : Except String Unit)
    (cfg : MainConfig) (p : ConfigPatch) (s s2 : EngineState) :
    (∀ st, mkEnhancer init cfg = .ok st →
      st.config.chunkOverlap < st.config.chunkSize) ∧
    (runUpdate init p s = (.ok (), s2) →
      (truthyInt p.chunkSize || truthyInt p.chunkOverlap) = true →
      s2.config.chunkOverlap < s2.config.chunkSize) ∧
    (p.openaiApiKey ≠ some "" →
      badIntRange p.chunkSize 100 4000 = false →
      badIntRange p.chunkOverlap 0 1000 = false →
      badIntRange p.maxContextFiles 1 50 = false →
      badRatRange p.similarityThreshold 0 1 = false →
      (truthyInt p.chunkSize || truthyInt p.chunkOverlap) = true →
      (applyMerge p s).config.chunkSize ≤ (applyMerge p s).config.chunkOverlap →
      runUpdate init p s =
        (.error "Cannot have chunkOverlap >= chunkSize", applyMerge p s)) := by
  refine ⟨?_, ?_, ?_⟩
  · intro st hok
    by_cases hk : cfg.openaiApiKey = ""
    · simp [mkEnhancer, hk] at hok
    by_cases hco : cfg.chunkSize ≤ cfg.chunkOverlap
    · simp [mkEnhancer, hk, hco] at hok
    have hcfg : st.config.chunkSize = cfg.chunkSize ∧
        st.config.chunkOverlap = cfg.chunkOverlap := by
      by_cases he : cfg.enabled = true
      · cases init with
        | ok u =>
          simp [mkEnhancer, hk, hco, he, initializeVectorStore] at hok
          cases hok
          exact ⟨rfl, rfl⟩
        | error e =>
          simp [mkEnhancer, hk, hco, he, initializeVectorStore] at hok
          cases hok
          exact ⟨rfl, rfl⟩
      · simp [mkEnhancer, hk, hco, he] at hok
        cases hok
        exact ⟨rfl, rfl⟩
    rw [hcfg.1, hcfg.2]
    exact not_le.mp hco
  · intro hok ht
    by_cases h1 : p.openaiApiKey = some ""
    · simp [runUpdate, h1] at hok
    by_cases h2 : badIntRange p.chunkSize 100 4000 = true
    · simp [runUpdate, h1, h2] at hok
    by_cases h3 : badIntRange p.chunkOverlap 0 1000 = true
    · simp [runUpdate, h1, h2, h3] at hok
    by_cases h4 : badIntRange p.maxContextFiles 1 50 = true
    · simp [runUpdate, h1, h2, h3, h4] at hok
    by_cases h5 : badRatRange p.similarityThreshold 0 1 = true
    · simp [runUpdate, h1, h2, h3, h4, h5] at hok
    rcases hsw : applySplitterSwap p (applyMerge p s) with e | sw
    · simp only [runUpdate, if_neg h1, if_neg h2, if_neg h3, if_neg h4, if_neg h5,
        hsw] at hok
      simp at hok
    · have hs2 : s2 = applyReinit init (applyReset p sw) := by
        simp only [runUpdate, if_neg h1, if_neg h2, if_neg h3, if_neg h4, if_neg h5,
          hsw, Prod.mk.injEq] at hok
        exact hok.2.symm
      rw [applySplitterSwap, if_pos ht] at hsw
      by_cases hco : (applyMerge p s).config.chunkSize ≤ (applyMerge p s).config.chunkOverlap
      · rw [if_pos hco] at hsw
        cases hsw
      · rw [if_neg hco] at hsw
        have hswc : sw.config = (applyMerge p s).config := by
          injection hsw with h
          rw [← h]
        subst hs2
        rw [applyReinit_config, applyReset_config, hswc]
        exact not_le.mp hco
  · intro hk1 hb2 hb3 hb4 hb5 ht hco
    simp only [runUpdate, if_neg hk1, hb2, hb3, hb4, hb5, Bool.false_eq_true,
      if_false, applySplitterSwap, if_pos ht, if_pos hco]

/-- Witness for C4 as amended: a successful construction satisfies the
invariant, an accepted rebuild-carrying update satisfies it, and the
violating update throws with the mutated configuration left behind. -/
theorem chunkOverlap_invariant_amended_witness :
    Fix.s0.config.chunkOverlap < Fix.s0.config.chunkSize ∧
    Fix.sGrow.config.chunkOverlap < Fix.sGrow.config.chunkSize ∧
    runUpdate (.ok ()) Fix.patchC4 Fix.s0 =
      (.error "Cannot have chunkOverlap >= chunkSize", applyMerge Fix.patchC4 Fix.s0) :=
  ⟨(chunkOverlap_invariant_amended (.ok ()) Fix.cfg0 Fix.patchC4 Fix.s0 Fix.s0).1
      Fix.s0 (by decide),
   (chunkOverlap_invariant_amended (.ok ()) Fix.cfg0 Fix.patchGrow Fix.s0 Fix.sGrow).2.1
      (by decide) (by decide),
   (chunkOverlap_invariant_amended (.ok ()) Fix.cfg0 Fix.patchC4 Fix.s0 Fix.s0).2.2
      (by decide) rfl rfl rfl rfl (by decide) (by decide)⟩

/-- After the reset block has cleared the store, the provider, the
initialized flag and the stored promise, the re-initialization block either
leaves everything cleared (engine disabled, or the fresh initialization
failed) or installs a fresh empty store together with a provider built from
the current configuration. -/
theorem reinit_after_reset (init : Except String Unit) (x : EngineState)
    (hv : x.vectorStore = none) (hemb : x.embeddings = none)
    (hini : x.isInitialized = false) (hpr : x.initializationPromise = none) :
    ((applyReinit init x).vectorStore = none ∨
      (applyReinit init x).vectorStore = some []) ∧
    ((applyReinit init x).embeddings = none ∨
      (applyReinit init x).embeddings = some ((applyReinit init x).config.openaiApiKey,
        (applyReinit init x).config.modelName.getD "text-embedding-3-small")) ∧
    (isReady (applyReinit init x) = true → (applyReinit init x).vectorStore = some []) ∧
    ((applyReinit init x).isInitialized = false → isReady (applyReinit init x) = false) := by
  rw [applyReinit, hini, hpr]
  by_cases he : x.config.enabled = true
  · rw [if_pos (by simp [he])]
    rw [initializeVectorStore.eq_def, hini, he]
    simp only [Bool.false_or, Bool.not_true, if_false]
    cases init with
    | ok u =>
      refine ⟨Or.inr rfl, Or.inr rfl, fun _ => rfl, fun hf => ?_⟩
      simp at hf
    | error e =>
      refine ⟨Or.inl hv, Or.inl hemb, fun hr => ?_, fun _ => ?_⟩
      · simp [isReady, hini] at hr
      · simp [isReady, hini]
  · rw [if_neg (by simp [he])]
    refine ⟨Or.inl hv, Or.inl hemb, fun hr => ?_, fun _ => ?_⟩
    · simp [isReady, he] at hr
    · simp [isReady, he]

/-- C5: an accepted updateConfig that carries provider credentials or a
model name discards the vector store and the provider and resets the
initialization state, so that the resulting store is null or freshly
empty, any provider present afterwards was built from the updated
configuration, a ready engine holds the freshly emptied store (no vector
embedded under the previous provider survives), and the engine is not
ready while uninitialized. -/
theorem provider_change_clears_index (init : Except String Unit) (p : ConfigPatch)
    (s s2 : EngineState)
    (hp : p.openaiApiKey.isSome ∨ p.modelName.isSome)
    (hok : runUpdate init p s = (.ok (), s2)) :
    (s2.vectorStore = none ∨ s2.vectorStore = some []) ∧
    (s2.embeddings = none ∨
      s2.embeddings = some (s2.config.openaiApiKey,
        s2.config.modelName.getD "text-embedding-3-small")) ∧
    (isReady s2 = true → s2.vectorStore = some []) ∧
    (s2.isInitialized = false → isReady s2 = false) := by
  by_cases h1 : p.openaiApiKey = some ""
  · simp [runUpdate, h1] at hok
  by_cases h2 : badIntRange p.chunkSize 100 4000 = true
  · simp [runUpdate, h1, h2] at hok
  by_cases h3 : badIntRange p.chunkOverlap 0 1000 = true
  · simp [runUpdate, h1, h2, h3] at hok
  by_cases h4 : badIntRange p.maxContextFiles 1 50 = true
  · simp [runUpdate, h1, h2, h3, h4] at hok
  by_cases h5 : badRatRange p.similarityThreshold 0 1 = true
  · simp [runUpdate, h1, h2, h3, h4, h5] at hok
  have hcond : (decide (p.enabled = some false) || p.openaiApiKey.isSome
      || p.modelName.isSome) = true := by
    rcases hp with h | h <;> simp [h]
  rcases hsw : applySplitterSwap p (applyMerge p s) with e | sw
  · simp only [runUpdate, if_neg h1, if_neg h2, if_neg h3, if_neg h4, if_neg h5,
      hsw] at hok
    simp at hok
  · have hs2 : s2 = applyReinit init (applyReset p sw) := by
      simp only [runUpdate, if_neg h1, if_neg h2, if_neg h3, if_neg h4, if_neg h5,
        hsw, Prod.mk.injEq] at hok
      exact hok.2.symm
    have hreset : applyReset p sw =
        { sw with vectorStore := none, embeddings := none,
                  isInitialized := false, initializationPromise := none } := by
      rw [applyReset, if_pos hcond]
    rw [hreset] at hs2
    subst hs2
    exact reinit_after_reset init _ rfl rfl rfl rfl

/-- Witness for C5: the property at a concrete state and an update that
replaces the API key. -/
theorem provider_change_clears_index_witness :
    (Fix.s0k2.vectorStore = none ∨ Fix.s0k2.vectorStore = some []) ∧
    (Fix.s0k2.embeddings = none ∨
      Fix.s0k2.embeddings = some (Fix.s0k2.config.openaiApiKey,
        Fix.s0k2.config.modelName.getD "text-embedding-3-small")) ∧
    (isReady Fix.s0k2 = true → Fix.s0k2.vectorStore = some []) ∧
    (Fix.s0k2.isInitialized = false → isReady Fix.s0k2 = false) :=
  provider_change_clears_index (.ok ()) Fix.patchKey Fix.s0 Fix.s0k2
    (Or.inl rfl) (by decide)

/-- The collection loop of indexWorkspaceDocuments ignores exactly the
sources that are non-local or empty after trimming: collecting over a list
equals collecting over its kept-documents filtration. -/
theorem buildDocs_filter (split : String → Except String (List String)) (l : List InputDoc) :
    buildDocs split l = buildDocs split (l.filter keepDoc) := by
  induction l with
  | nil => rfl
  | cons d rest ih =>
    by_cases hk : keepDoc d = true
    · have hk2 : d.scheme = "file" ∧ ¬ jsTrim d.text = "" := by
        simpa [keepDoc] using hk
      have hskip : ¬(d.scheme ≠ "file" ∨ jsTrim d.text = "") := by
        simp [hk2.1, hk2.2]
      rw [List.filter_cons_of_pos hk]
      simp only [buildDocs, if_neg hskip, ih]
    · have hskip : d.scheme ≠ "file" ∨ jsTrim d.text = "" := by
        simp [keepDoc] at hk
        by_cases hs : d.scheme = "file"
        · exact Or.inr (hk hs)
        · exact Or.inl hs
      rw [List.filter_cons_of_neg (by simpa using hk)]
      simp only [buildDocs, if_pos hskip, ih]

/-- Counterexample for C8: the code truncates the input batch BEFORE
filtering, and a source whose chunking fails aborts the whole batch.  With
maxContextFiles 1, a non-local document followed by a good local one
indexes nothing, while the pipeline the claim describes (filter, then
truncate, then chunk skipping failures) indexes the good document; with a
good document followed by one whose chunking fails, the code again indexes
nothing while the claim pipeline indexes the good document. -/
theorem indexDocs_order_counterexample :
    (indexDocs Fix.split1 (.ok ()) [Fix.dU, Fix.dG] Fix.sMax1).vectorStore = some [] ∧
    claimC8Docs Fix.split1 1 [Fix.dU, Fix.dG] = [Fix.gChunk] ∧
    (indexDocs Fix.split1 (.ok ()) [Fix.dU, Fix.dG] Fix.sMax1).vectorStore ≠
      some (claimC8Docs Fix.split1 1 [Fix.dU, Fix.dG]) ∧
    (indexDocs Fix.split1 (.ok ()) [Fix.dG, Fix.dB] Fix.s0).vectorStore = some [] ∧
    claimC8Docs Fix.split1 10 [Fix.dG, Fix.dB] = [Fix.gChunk] ∧
    (indexDocs Fix.split1 (.ok ()) [Fix.dG, Fix.dB] Fix.s0).vectorStore ≠
      some (claimC8Docs Fix.split1 10 [Fix.dG, Fix.dB]) :=
  ⟨by decide, by decide, by decide, by decide, by decide, by decide⟩

/-- C8 as amended: indexWorkspaceDocuments truncates the input batch to at
most maxContextFiles documents FIRST and then filters out, among those,
the sources that are non-local or empty after trimming; if chunking any
remaining source fails the whole batch is abandoned (nothing is added,
though the call still resolves); otherwise exactly the chunks of the
remaining sources are appended to the index. -/
theorem indexDocs_truncate_then_filter (split : String → Except String (List String))
    (docs : List InputDoc) (s : EngineState) (st : List VectorDocument)
    (hen : s.config.enabled = true)
    (hpr : ∀ e, s.initializationPromise ≠ some (.error e))
    (hst : s.vectorStore = some st) :
    (∀ l, buildDocs split l = buildDocs split (l.filter keepDoc)) ∧
    ((∃ e, buildDocs split (jsSliceTo s.config.maxContextFiles docs) = .error e) →
      indexDocs split (.ok ()) docs s = s) ∧
    (∀ ld, buildDocs split (jsSliceTo s.config.maxContextFiles docs) = .ok ld →
      (indexDocs split (.ok ()) docs s).vectorStore = some (st ++ ld)) := by
  refine ⟨buildDocs_filter split, ?_, ?_⟩
  · rintro ⟨e, he⟩
    rcases hpro : s.initializationPromise with _ | v
    · simp [indexDocs, hen, hpro, hst, he]
    · cases v with
      | ok u => simp [indexDocs, hen, hpro, hst, he]
      | error e2 => exact absurd hpro (hpr e2)
  · intro ld hld
    by_cases hl : 0 < ld.length
    · rcases hpro : s.initializationPromise with _ | v
      · simp [indexDocs, hen, hpro, hst, hld, hl]
      · cases v with
        | ok u => simp [indexDocs, hen, hpro, hst, hld, hl]
        | error e2 => exact absurd hpro (hpr e2)
    · have hnil : ld = [] := List.length_eq_zero.mp (by omega)
      subst hnil
      rcases hpro : s.initializationPromise with _ | v
      · simp [indexDocs, hen, hpro, hst, hld]
      · cases v with
        | ok u => simp [indexDocs, hen, hpro, hst, hld]
        | error e2 => exact absurd hpro (hpr e2)

/-- Witness for C8 as amended: the characterization at a concrete ready
engine and a two-document batch. -/
theorem indexDocs_truncate_then_filter_witness :
    (∀ l, buildDocs Fix.split1 l = buildDocs Fix.split1 (l.filter keepDoc)) ∧
    ((∃ e, buildDocs Fix.split1
        (jsSliceTo Fix.s0.config.maxContextFiles [Fix.dG, Fix.dU]) = .error e) →
      indexDocs Fix.split1 (.ok ()) [Fix.dG, Fix.dU] Fix.s0 = Fix.s0) ∧
    (∀ ld, buildDocs Fix.split1
        (jsSliceTo Fix.s0.config.maxContextFiles [Fix.dG, Fix.dU]) = .ok ld →
      (indexDocs Fix.split1 (.ok ()) [Fix.dG, Fix.dU] Fix.s0).vectorStore =
        some ([] ++ ld)) :=
  indexDocs_truncate_then_filter Fix.split1 [Fix.dG, Fix.dU] Fix.s0 [] rfl
    (fun e => by simp [Fix.s0]) rfl

end Retrieval
